import Mathlib

/-!
Shallow embedding of the `near_event_listener` crate (src/listener.rs,
src/models.rs, src/error.rs) and proofs about its polling/extraction engine.

Strings from the Rust side are modelled as lists of Unicode scalar values
(`List Char`), matching Rust's `str` as a sequence of `char`s; the byte-level
view needed for slice-boundary reasoning is recovered through the UTF-8 size
of each scalar.  Block heights and the cursor are `u64` in the source; they
are modelled as `Nat` (the only arithmetic performed on them is `+ 1` on
chain heights, far from the `u64` range).
-/

namespace NearListener

/-- Rust `str` contents, as the sequence of Unicode scalar values. -/
abbrev Str := List Char

/-- Model of `serde_json::Value` (src/models.rs uses it for the `data` field). -/
inductive Json where
  | null : Json
  | bool (b : Bool) : Json
  | num (n : Int) : Json
  | str (s : Str) : Json
  | arr (elems : List Json) : Json
  | obj (fields : List (Str × Json)) : Json

/-- The `EventLog` from src/models.rs: `standard`, `version`, `event` are strings,
`data` is an arbitrary JSON value. -/
structure EventLog where
  standard : Str
  version : Str
  event : Str
  data : Json

/-- The `ListenerError` from src/error.rs.  `JsonError` carries the underlying
`serde_json::Error`, modelled by its diagnostic string. -/
inductive ListenerError where
  | RpcError (msg : Str) : ListenerError
  | InvalidEventFormat (msg : Str) : ListenerError
  | JsonError (diagnostic : Str) : ListenerError
  | MissingField (field : Str) : ListenerError
deriving DecidableEq

/-- The literal ASCII marker `"EVENT_JSON:"` used by `process_log`. -/
def eventJsonMarker : Str := ['E', 'V', 'E', 'N', 'T', '_', 'J', 'S', 'O', 'N', ':']

/-- Rust `str::starts_with` on char sequences: `startsWithList s p` holds when
`p` is a leading segment of `s`. -/
def startsWithList : Str → Str → Bool
  | _, [] => true
  | [], _ :: _ => false
  | c :: cs, p :: ps => c == p && startsWithList cs ps

/-- First value bound to a key in a JSON object's field list (objects produced
by a JSON text parser have distinct keys, so "first" is just "the"). -/
def jsonLookup : List (Str × Json) → Str → Option Json
  | [], _ => none
  | (k, v) :: rest, key => if k == key then some v else jsonLookup rest key

/-- The four field names of `EventLog` (src/models.rs). -/
def standardKey : Str := "standard".toList

/-- Field name `version`. -/
def versionKey : Str := "version".toList

/-- Field name `event`. -/
def eventKey : Str := "event".toList

/-- Field name `data`. -/
def dataKey : Str := "data".toList

/-- Coerce a looked-up JSON value to a string field. -/
def asStr : Option Json → Option Str
  | some (.str s) => some s
  | _ => none

/-- Derived-`serde` deserialization of `EventLog` from an already-parsed JSON
value (src/models.rs `#[derive(Deserialize)]`): the value must be an object
whose `standard`, `version`, `event` fields are strings and whose `data`
field is any JSON value; anything else is a data error. -/
def eventLogFromJson : Json → Except Str EventLog
  | .obj fields =>
    match asStr (jsonLookup fields standardKey) with
    | none => .error ("invalid EventLog value".toList)
    | some s =>
      match asStr (jsonLookup fields versionKey) with
      | none => .error ("invalid EventLog value".toList)
      | some v =>
        match asStr (jsonLookup fields eventKey) with
        | none => .error ("invalid EventLog value".toList)
        | some e =>
          match jsonLookup fields dataKey with
          | none => .error ("invalid EventLog value".toList)
          | some d => .ok ⟨s, v, e, d⟩
  | _ => .error ("EventLog expects a JSON object".toList)

/-- The `serde_json::from_str::<EventLog>`: JSON text parsing (the grammar of the
external `serde_json` crate, abstracted as the `parse` argument carrying its
diagnostic on failure) followed by the derived `EventLog` deserialization. -/
def serdeFromStr (parse : Str → Except Str Json) (s : Str) : Except Str EventLog :=
  match parse s with
  | .error d => .error d
  | .ok j => eventLogFromJson j

/-- The `NearEventListener::process_log` (src/listener.rs lines 246-261), with the
`serde_json::from_str::<EventLog>` collaborator passed as `deser`: reject
lines not starting with `EVENT_JSON:` with `InvalidEventFormat`, otherwise
deserialize the remainder, wrapping a deserialization failure in `JsonError`.
The Rust byte slice `&log["EVENT_JSON:".len()..]` drops the 11 ASCII marker
bytes, i.e. the first 11 scalar values once `starts_with` has succeeded. -/
def process_log (deser : Str → Except Str EventLog) (log : Str) : Except ListenerError EventLog :=
  if !(startsWithList log eventJsonMarker) then
    .error (.InvalidEventFormat
      ("Log does not start with EVENT_JSON:".toList))
  else
    match deser (log.drop eventJsonMarker.length) with
    | .error e => .error (.JsonError e)
    | .ok ev => .ok ev

/-! ### Byte-level view of `process_log` (for the slice-safety claim)

Rust's `&log["EVENT_JSON:".len()..]` indexes by BYTES and panics when the
index is not a character boundary.  `utf8Size` is the UTF-8 encoded width of
one scalar value, `byteLen` the byte length of a string, and a byte index is
a character boundary exactly when it is the byte length of some char-count
leading segment of the string. -/

/-- UTF-8 encoded size in bytes of one Unicode scalar value. -/
def utf8Size (c : Char) : Nat :=
  if c.toNat < 128 then 1
  else if c.toNat < 2048 then 2
  else if c.toNat < 65536 then 3
  else 4

/-- Byte length of a string's UTF-8 encoding. -/
def byteLen : Str → Nat
  | [] => 0
  | c :: cs => utf8Size c + byteLen cs

/-- Rust `str::is_char_boundary`: byte index `i` falls at the UTF-8 encoding
boundary of some leading segment of `s` (including `i = byteLen s`). -/
def isCharBoundary (s : Str) (i : Nat) : Bool :=
  (List.range (s.length + 1)).any (fun n => byteLen (s.take n) == i)

/-- Rust byte slicing `&s[i..]` restricted to boundary indices: drop whole
scalars while bytes remain to be dropped. -/
def byteDrop (s : Str) (i : Nat) : Str :=
  match s with
  | [] => []
  | c :: cs => if i = 0 then c :: cs else byteDrop cs (i - utf8Size c)

/-- Outcome of running a Rust function that may panic. -/
inductive RustEval (α : Type) where
  | value (a : α) : RustEval α
  | panicked : RustEval α
deriving DecidableEq

/-- The `process_log` with Rust's byte-slice semantics made explicit: after the
`starts_with` guard succeeds, the slice `&log[11..]` panics unless byte
index 11 (the marker's byte length) is a character boundary of `log`. -/
def process_log_exec (deser : Str → Except Str EventLog) (log : Str) :
    RustEval (Except ListenerError EventLog) :=
  if !(startsWithList log eventJsonMarker) then
    .value (.error (.InvalidEventFormat
      ("Log does not start with EVENT_JSON:".toList)))
  else if isCharBoundary log (byteLen eventJsonMarker) then
    match deser (byteDrop log (byteLen eventJsonMarker)) with
    | .error e => .value (.error (.JsonError e))
    | .ok ev => .value (.ok ev)
  else
    .panicked

/-! ### Helper lemmas about strings and boundaries -/

theorem utf8Size_pos (c : Char) : 0 < utf8Size c := by
  unfold utf8Size
  repeat' split
  all_goals omega

theorem startsWithList_iff (p : Str) :
    ∀ s, startsWithList s p = true ↔ ∃ rest, s = p ++ rest := by
  induction p with
  | nil =>
    intro s
    simp [startsWithList]
  | cons q ps ih =>
    intro s
    cases s with
    | nil => simp [startsWithList]
    | cons c cs =>
      simp only [startsWithList, Bool.and_eq_true, beq_iff_eq, ih cs,
        List.cons_append, List.cons.injEq]
      constructor
      · rintro ⟨rfl, rest, rfl⟩
        exact ⟨rest, rfl, rfl⟩
      · rintro ⟨rest, rfl, rfl⟩
        exact ⟨rfl, rest, rfl⟩

theorem byteLen_append (p s : Str) : byteLen (p ++ s) = byteLen p + byteLen s := by
  induction p with
  | nil => simp [byteLen]
  | cons c cs ih => simp [byteLen, ih]; omega

theorem isCharBoundary_append (p s : Str) :
    isCharBoundary (p ++ s) (byteLen p) = true := by
  unfold isCharBoundary
  rw [List.any_eq_true]
  refine ⟨p.length, ?_, ?_⟩
  · rw [List.mem_range, List.length_append]
    omega
  · rw [List.take_left, beq_iff_eq]

theorem byteDrop_append (p s : Str) : byteDrop (p ++ s) (byteLen p) = s := by
  induction p with
  | nil =>
    cases s with
    | nil => rfl
    | cons c cs => simp [byteDrop, byteLen]
  | cons c cs ih =>
    have hc := utf8Size_pos c
    simp only [List.cons_append, byteDrop, byteLen]
    rw [if_neg (by omega)]
    have : utf8Size c + byteLen cs - utf8Size c = byteLen cs := by omega
    rw [this, List.append_eq, ih]

theorem asStr_eq_some_iff (o : Option Json) (s : Str) :
    asStr o = some s ↔ o = some (.str s) := by
  cases o with
  | none => simp [asStr]
  | some j => cases j <;> simp [asStr]

theorem eventLogFromJson_ok_iff (j : Json) :
    (∃ e, eventLogFromJson j = .ok e) ↔
      ∃ fields s v ev d, j = .obj fields ∧
        jsonLookup fields standardKey = some (.str s) ∧
        jsonLookup fields versionKey = some (.str v) ∧
        jsonLookup fields eventKey = some (.str ev) ∧
        jsonLookup fields dataKey = some d := by
  constructor
  · rintro ⟨e, he⟩
    cases j with
    | obj fields =>
      refine ⟨fields, ?_⟩
      cases h1 : asStr (jsonLookup fields standardKey) with
      | none => simp [eventLogFromJson, h1] at he
      | some s =>
        cases h2 : asStr (jsonLookup fields versionKey) with
        | none => simp [eventLogFromJson, h1, h2] at he
        | some v =>
          cases h3 : asStr (jsonLookup fields eventKey) with
          | none => simp [eventLogFromJson, h1, h2, h3] at he
          | some ev =>
            cases h4 : jsonLookup fields dataKey with
            | none => simp [eventLogFromJson, h1, h2, h3, h4] at he
            | some d =>
              rw [asStr_eq_some_iff] at h1 h2 h3
              exact ⟨s, v, ev, d, rfl, h1, h2, h3, rfl⟩
    | null => cases he
    | bool b => cases he
    | num n => cases he
    | str s => cases he
    | arr xs => cases he
  · rintro ⟨fields, s, v, ev, d, rfl, h1, h2, h3, h4⟩
    refine ⟨⟨s, v, ev, d⟩, ?_⟩
    rw [← asStr_eq_some_iff] at h1 h2 h3
    simp [eventLogFromJson, h1, h2, h3, h4]

/-- C10: `process_log` is total and never panics: with Rust's byte-slice
semantics made explicit (`process_log_exec`), every input — including strings
with multi-byte scalar values — evaluates to a value (never to a panic), and
that value is exactly what `process_log` returns (an `Ok` or an error).  The
slice at byte index 11 is only taken under the `starts_with` guard, and the
all-ASCII marker makes byte index 11 a character boundary there. -/
theorem claim_C10_process_log_never_panics (deser : Str → Except Str EventLog) (log : Str) :
    process_log_exec deser log = .value (process_log deser log) := by
  by_cases h : startsWithList log eventJsonMarker = true
  · obtain ⟨rest, rfl⟩ := (startsWithList_iff eventJsonMarker log).mp h
    simp only [process_log_exec, process_log, h, Bool.not_true, Bool.false_eq_true,
      if_false, isCharBoundary_append, if_true, byteDrop_append, List.drop_left]
    cases deser rest <;> rfl
  · rw [Bool.not_eq_true] at h
    simp [process_log_exec, process_log, h]

/-- C2: trichotomy of `process_log` under the abstract JSON grammar `parse`
(standing for `serde_json`'s text parser, with its diagnostic): success happens
exactly when the line starts with `EVENT_JSON:` and the remainder parses to a
JSON object with string fields `standard`, `version`, `event` and any `data`
field; a missing marker yields `InvalidEventFormat`; a marker followed by text
the parser rejects yields `JsonError` with the parser's diagnostic.  The three
outcomes are mutually exclusive (distinct constructors of one result value),
and the final conjunct shows one of them always occurs. -/
theorem claim_C2_process_log_trichotomy (parse : Str → Except Str Json) (L : Str) :
    ((∃ e, process_log (serdeFromStr parse) L = .ok e) ↔
      (startsWithList L eventJsonMarker = true ∧
        ∃ j, parse (L.drop eventJsonMarker.length) = .ok j ∧
          ∃ fields s v ev d, j = .obj fields ∧
            jsonLookup fields standardKey = some (.str s) ∧
            jsonLookup fields versionKey = some (.str v) ∧
            jsonLookup fields eventKey = some (.str ev) ∧
            jsonLookup fields dataKey = some d))
    ∧ (startsWithList L eventJsonMarker = false →
        process_log (serdeFromStr parse) L =
          .error (.InvalidEventFormat ("Log does not start with EVENT_JSON:".toList)))
    ∧ (∀ d, startsWithList L eventJsonMarker = true →
        parse (L.drop eventJsonMarker.length) = .error d →
        process_log (serdeFromStr parse) L = .error (.JsonError d))
    ∧ ((∃ e, process_log (serdeFromStr parse) L = .ok e) ∨
       (∃ m, process_log (serdeFromStr parse) L = .error (.InvalidEventFormat m)) ∨
       (∃ d, process_log (serdeFromStr parse) L = .error (.JsonError d))) := by
  refine ⟨?_, ?_, ?_, ?_⟩
  · by_cases h : startsWithList L eventJsonMarker = true
    · simp only [process_log, serdeFromStr, h, Bool.not_true, Bool.false_eq_true,
        if_false, true_and]
      cases hp : parse (L.drop eventJsonMarker.length) with
      | error d =>
        simp only [hp]
        constructor
        · rintro ⟨e, he⟩; cases he
        · rintro ⟨j, hj, _⟩; cases hj
      | ok j =>
        simp only [hp, ← eventLogFromJson_ok_iff]
        cases hev : eventLogFromJson j with
        | error d =>
          simp only [hev]
          constructor
          · rintro ⟨e, he⟩; cases he
          · rintro ⟨j', hj', e, he⟩
            cases hj'
            rw [hev] at he; cases he
        | ok ev =>
          simp only [hev]
          constructor
          · rintro ⟨e, _⟩; exact ⟨j, rfl, ev, hev⟩
          · rintro ⟨j', hj', e, he⟩; exact ⟨ev, rfl⟩
    · rw [Bool.not_eq_true] at h
      simp only [process_log, h, Bool.not_false, if_true]
      constructor
      · rintro ⟨e, he⟩; cases he
      · rintro ⟨hh, _⟩; cases hh
  · intro h
    simp [process_log, h]
  · intro d h hp
    simp [process_log, h, serdeFromStr, hp]
  · by_cases h : startsWithList L eventJsonMarker = true
    · simp only [process_log, serdeFromStr, h, Bool.not_true, Bool.false_eq_true, if_false]
      cases hp : parse (L.drop eventJsonMarker.length) with
      | error d =>
        simp only [hp]
        exact Or.inr (Or.inr ⟨d, rfl⟩)
      | ok j =>
        simp only [hp]
        cases hev : eventLogFromJson j with
        | error d =>
          simp only [hev]
          exact Or.inr (Or.inr ⟨d, rfl⟩)
        | ok ev =>
          simp only [hev]
          exact Or.inl ⟨ev, rfl⟩
    · rw [Bool.not_eq_true] at h
      refine Or.inr (Or.inl ⟨"Log does not start with EVENT_JSON:".toList, ?_⟩)
      simp [process_log, h]

/-- Witness for C2 at a concrete input: the line is exactly the marker with an
empty payload, and the (concrete) parser rejects the empty remainder with
diagnostic `"x"`; `process_log` then fails with `JsonError "x"`. -/
theorem claim_C2_witness :
    process_log (serdeFromStr (fun _ => .error ("x".toList))) eventJsonMarker =
      .error (.JsonError ("x".toList)) :=
  (claim_C2_process_log_trichotomy (fun _ => .error ("x".toList)) eventJsonMarker).2.2.1
    "x".toList (by decide) rfl

/-! ### Transaction-status responses and `extract_logs` -/

/-- The `ExecutionOutcomeView`: only the `logs` field is read by the listener. -/
structure ExecutionOutcomeView where
  logs : List Str

/-- The `ExecutionOutcomeWithIdView`: the `outcome` field wraps the logs. -/
structure ExecutionOutcomeWithIdView where
  outcome : ExecutionOutcomeView

/-- The `FinalExecutionOutcomeView`: transaction-level outcome plus the ordered
receipt outcomes. -/
structure FinalExecutionOutcomeView where
  transaction_outcome : ExecutionOutcomeWithIdView
  receipts_outcome : List ExecutionOutcomeWithIdView

/-- The `FinalExecutionOutcomeWithReceiptView`: the variant payload the listener
ignores (it only prints it). -/
structure FinalExecutionOutcomeWithReceiptView where
  final_outcome : FinalExecutionOutcomeView

/-- The `FinalExecutionOutcomeViewEnum` from `near_primitives::views`. -/
inductive FinalExecutionOutcomeViewEnum where
  | FinalExecutionOutcome (o : FinalExecutionOutcomeView) : FinalExecutionOutcomeViewEnum
  | FinalExecutionOutcomeWithReceipt (o : FinalExecutionOutcomeWithReceiptView) :
      FinalExecutionOutcomeViewEnum

/-- The `RpcTransactionResponse`: only `final_execution_outcome` is read. -/
structure RpcTransactionResponse where
  final_execution_outcome : Option FinalExecutionOutcomeViewEnum

/-- The `NearEventListener::extract_logs` (src/listener.rs lines 223-244): start
from an empty vector, extend with the transaction outcome's logs, then fold
over the receipt outcomes in order extending with each one's logs; the
with-receipt variant (and an absent outcome) contributes nothing. -/
def extract_logs (response : RpcTransactionResponse) : List Str :=
  match response.final_execution_outcome with
  | some (.FinalExecutionOutcome final_outcome) =>
    final_outcome.receipts_outcome.foldl
      (fun logs receipt_outcome => logs ++ receipt_outcome.outcome.logs)
      ([] ++ final_outcome.transaction_outcome.outcome.logs)
  | some (.FinalExecutionOutcomeWithReceipt _) => []
  | none => []

theorem foldl_append_eq {α β : Type} (f : α → List β) :
    ∀ (l : List α) (a : List β),
      l.foldl (fun acc x => acc ++ f x) a = a ++ (l.map f).flatten := by
  intro l
  induction l with
  | nil => intro a; simp
  | cons x xs ih => intro a; simp [ih, List.append_assoc]

/-- C7: on a fully-resolved outcome, `extract_logs` returns exactly the
transaction-level log lines followed by each receipt's log lines in receipt
order; on the with-receipt variant it returns the empty sequence. -/
theorem claim_C7_extract_logs_order (fo : FinalExecutionOutcomeView)
    (w : FinalExecutionOutcomeWithReceiptView) :
    extract_logs ⟨some (.FinalExecutionOutcome fo)⟩ =
      fo.transaction_outcome.outcome.logs ++
        (fo.receipts_outcome.map (fun r => r.outcome.logs)).flatten
    ∧ extract_logs ⟨some (.FinalExecutionOutcomeWithReceipt w)⟩ = [] := by
  constructor
  · simp [extract_logs, foldl_append_eq]
  · rfl

/-! ### Block references and the cursor (`specify_block_reference`) -/

/-- The `near_primitives::types::Finality` (variant names as in the source). -/
inductive Finality where
  | None : Finality
  | DoomSlug : Finality
  | Final : Finality
deriving DecidableEq

/-- The `near_primitives::types::BlockId`; hashes are abstracted to numbers. -/
inductive BlockId where
  | Height (height : Nat) : BlockId
  | Hash (hash : Nat) : BlockId
deriving DecidableEq

/-- The `near_primitives::types::BlockReference` (the two variants the listener
uses). -/
inductive BlockReference where
  | BlockId (id : BlockId) : BlockReference
  | Finality (f : Finality) : BlockReference
deriving DecidableEq

/-- The `NearEventListener::specify_block_reference` (src/listener.rs lines
136-142), a function of the `last_processed_block` cursor alone. -/
def specify_block_reference (last_processed_block : Nat) : BlockReference :=
  if last_processed_block == 0 then
    .Finality .Final
  else
    .BlockId (.Height (last_processed_block + 1))

/-- C8: block-reference resolution is a pure function of the cursor (in the
embedding it takes nothing but the cursor, so call count and other state
cannot influence it): cursor 0 requests the latest finalized block, cursor
`H > 0` requests exactly height `H + 1`. -/
theorem claim_C8_specify_block_reference (H : Nat) :
    specify_block_reference 0 = .Finality .Final ∧
    (0 < H → specify_block_reference H = .BlockId (.Height (H + 1))) := by
  refine ⟨rfl, fun h => ?_⟩
  have hne : (H == 0) = false := by
    simp [Nat.pos_iff_ne_zero.mp h]
  simp [specify_block_reference, hne]

/-- Witness for C8 at cursor 7: the resolver requests height 8. -/
theorem claim_C8_witness :
    0 < 7 ∧ specify_block_reference 7 = .BlockId (.Height 8) :=
  ⟨by decide, (claim_C8_specify_block_reference 7).2 (by decide)⟩

/-! ### Scanning a block for the configured transaction -/

/-- The `near_primitives::views::ActionView` restricted to what the listener
inspects: `FunctionCall` with its `method_name` (its `args`/`gas`/`deposit`
are never read), every other action kind collapsed to `Other`. -/
inductive ActionView where
  | FunctionCall (method_name : Str) : ActionView
  | Other : ActionView
deriving DecidableEq

/-- The transaction fields the scan reads: hash (already displayed as a
string), signer, receiver, and the ordered action list. -/
structure SignedTransactionView where
  hash : Str
  signer_id : Str
  receiver_id : Str
  actions : List ActionView
deriving DecidableEq

/-- A chunk header: only `chunk_hash` is read (hashes abstracted to numbers). -/
structure ChunkHeaderView where
  chunk_hash : Nat
deriving DecidableEq

/-- A block header: only `height` is read. -/
structure BlockHeaderView where
  height : Nat
deriving DecidableEq

/-- The `BlockView`: header plus ordered chunk headers. -/
structure BlockView where
  header : BlockHeaderView
  chunks : List ChunkHeaderView
deriving DecidableEq

/-- The `ChunkView`: the ordered transaction list. -/
structure ChunkView where
  transactions : List SignedTransactionView
deriving DecidableEq

/-- The listener configuration the scan consults (`self.account_id`,
`self.method_name`). -/
structure ListenerConfig where
  account_id : Str
  method_name : Str
deriving DecidableEq

/-- One action qualifies when it is a `FunctionCall` whose `method_name`
equals the configured one (src/listener.rs lines 177-189). -/
def actionMatches (method_name : Str) : ActionView → Bool
  | .FunctionCall m => m == method_name
  | .Other => false

/-- The inner transaction loop of `find_transaction_in_block`: first
transaction whose receiver is the configured account and that carries a
qualifying action; returns its displayed hash and signer. -/
def findMatchInTxs (cfg : ListenerConfig) : List SignedTransactionView → Option (Str × Str)
  | [] => none
  | tx :: rest =>
    if tx.receiver_id == cfg.account_id then
      if tx.actions.any (actionMatches cfg.method_name) then
        some (tx.hash, tx.signer_id)
      else
        findMatchInTxs cfg rest
    else
      findMatchInTxs cfg rest

/-- The chunk loop of `find_transaction_in_block`: fetch each chunk in block
order, short-circuit on the first chunk whose transactions contain a match,
propagate a chunk-fetch failure as the overall error. -/
def findInChunks (cfg : ListenerConfig) (fetch_chunk : Nat → Except ListenerError ChunkView) :
    List ChunkHeaderView → Except ListenerError (Option (Str × Str))
  | [] => .ok none
  | ch :: rest =>
    match fetch_chunk ch.chunk_hash with
    | .error e => .error e
    | .ok chunk =>
      match findMatchInTxs cfg chunk.transactions with
      | some r => .ok (some r)
      | none => findInChunks cfg fetch_chunk rest

/-- The `NearEventListener::find_transaction_in_block` (src/listener.rs lines
168-195), with the chunk-fetch collaborator passed as a function. -/
def find_transaction_in_block (cfg : ListenerConfig)
    (fetch_chunk : Nat → Except ListenerError ChunkView) (block : BlockView) :
    Except ListenerError (Option (Str × Str)) :=
  findInChunks cfg fetch_chunk block.chunks

/-- A transaction matches when its receiver is the configured account and
some action is a `FunctionCall` on the configured method. -/
def txMatches (cfg : ListenerConfig) (tx : SignedTransactionView) : Bool :=
  tx.receiver_id == cfg.account_id && tx.actions.any (actionMatches cfg.method_name)

theorem findMatchInTxs_eq_find? (cfg : ListenerConfig) :
    ∀ txs : List SignedTransactionView,
      findMatchInTxs cfg txs = (txs.find? (txMatches cfg)).map (fun tx => (tx.hash, tx.signer_id)) := by
  intro txs
  induction txs with
  | nil => rfl
  | cons tx rest ih =>
    by_cases hr : tx.receiver_id == cfg.account_id
    · by_cases ha : tx.actions.any (actionMatches cfg.method_name)
      · simp [findMatchInTxs, hr, ha, List.find?_cons, txMatches]
      · simp [findMatchInTxs, hr, ha, List.find?_cons, txMatches, ih]
    · simp [findMatchInTxs, hr, List.find?_cons, txMatches, ih]

/-- C6: with the chunk collaborator resolving every chunk hash, the block scan
returns exactly the hash and signer of the FIRST matching transaction in the
order chunks appear in the block and transactions appear in each chunk
(`List.find?` over the in-order flattening), and `Ok none` — not an error —
when no transaction in the block matches. -/
theorem claim_C6_find_transaction_first_match (cfg : ListenerConfig)
    (chunkMap : Nat → ChunkView) (block : BlockView) :
    find_transaction_in_block cfg (fun h => .ok (chunkMap h)) block =
      .ok (((block.chunks.flatMap fun ch => (chunkMap ch.chunk_hash).transactions).find?
            (txMatches cfg)).map (fun tx => (tx.hash, tx.signer_id))) := by
  unfold find_transaction_in_block
  induction block.chunks with
  | nil => rfl
  | cons ch rest ih =>
    simp only [findInChunks, List.flatMap_cons, List.find?_append, findMatchInTxs_eq_find?]
    cases hfind : (chunkMap ch.chunk_hash).transactions.find? (txMatches cfg) with
    | some tx => simp [hfind]
    | none => simp [hfind, ih, findMatchInTxs_eq_find?]

/-! ### Block-fetch errors and `handle_block_error` -/

/-- The `near_jsonrpc_client::methods::block::RpcBlockError`: the handler errors a
block request can return (`InternalError`'s payload abstracted to its
message). -/
inductive RpcBlockError where
  | UnknownBlock : RpcBlockError
  | NotSyncedYet : RpcBlockError
  | InternalError (error_message : Str) : RpcBlockError
deriving DecidableEq

/-- The `JsonRpcError<RpcBlockError>` collapsed to the three classes the
listener's match distinguishes: server handler errors (for which
`handler_error()` yields the payload), server response-status errors, and
everything else (transport errors, other server errors). -/
inductive JsonRpcError where
  | HandlerError (e : RpcBlockError) : JsonRpcError
  | ResponseStatusError (status : Nat) : JsonRpcError
  | OtherError (msg : Str) : JsonRpcError
deriving DecidableEq

/-- The `JsonRpcError::handler_error`: the payload when the error is a server
handler error, `none` otherwise. -/
def handler_error : JsonRpcError → Option RpcBlockError
  | .HandlerError e => some e
  | _ => none

/-- Debug rendering of a handler error (stands for Rust's `{:?}`). -/
def rpcBlockErrorDebug : RpcBlockError → Str
  | .UnknownBlock => "UnknownBlock".toList
  | .NotSyncedYet => "NotSyncedYet".toList
  | .InternalError m => "InternalError ".toList ++ m

/-- Debug rendering of a JSON-RPC error (stands for Rust's `{:?}`). -/
def jsonRpcErrorDebug : JsonRpcError → Str
  | .HandlerError e => "HandlerError ".toList ++ rpcBlockErrorDebug e
  | .ResponseStatusError _ => "ResponseStatusError".toList
  | .OtherError m => m

/-- The `NearEventListener::handle_block_error` (src/listener.rs lines 263-288).
Besides the `Result<(), ListenerError>`, the model returns the cursor after
the call (the method mutates `self.last_processed_block` only in the
unknown-block arm) and whether the 5-second sleep ran (only in the
response-status arm). -/
def handle_block_error (last_processed_block : Nat) (err : JsonRpcError) :
    Except ListenerError Unit × Nat × Bool :=
  match handler_error err with
  | some .UnknownBlock => (.ok (), last_processed_block + 1, false)
  | some e =>
    (.error (.RpcError ("Block error: ".toList ++ rpcBlockErrorDebug e)),
      last_processed_block, false)
  | none =>
    match err with
    | .ResponseStatusError _ => (.ok (), last_processed_block, true)
    | _ =>
      (.error (.RpcError ("Non-handler error: ".toList ++ jsonRpcErrorDebug err)),
        last_processed_block, false)

/-! ### Transaction-status requests and `get_logs` -/

/-- The `near_primitives::views::TxExecutionStatus` (all variants). -/
inductive TxExecutionStatus where
  | None : TxExecutionStatus
  | Included : TxExecutionStatus
  | ExecutedOptimistic : TxExecutionStatus
  | IncludedFinal : TxExecutionStatus
  | Executed : TxExecutionStatus
  | Final : TxExecutionStatus
deriving DecidableEq

/-- The `RpcTransactionStatusRequest` with `TransactionInfo::TransactionId`:
transaction hash (abstracted to a number), sender account, and the
`wait_until` execution-status threshold. -/
structure RpcTransactionStatusRequest where
  tx_hash : Nat
  sender_account_id : Str
  wait_until : TxExecutionStatus
deriving DecidableEq

/-- The request `get_logs` builds (src/listener.rs lines 205-211): the parsed
hash, the signer, and `wait_until: TxExecutionStatus::None`. -/
def get_logs_request (tx_hash : Nat) (sender_account_id : Str) : RpcTransactionStatusRequest :=
  { tx_hash := tx_hash
    sender_account_id := sender_account_id
    wait_until := TxExecutionStatus.None }

/-- The collaborator responses one polling iteration can observe: the block
request, the chunk request (raw client result, its error rendered by
`to_string`), the transaction-status request, `CryptoHash::from_str`, and the
`serde_json` text grammar. -/
structure Oracle where
  block_response : BlockReference → Except JsonRpcError BlockView
  chunk_response : Nat → Except Str ChunkView
  tx_status_response : RpcTransactionStatusRequest → Except Str RpcTransactionResponse
  parse_hash : Str → Except Str Nat
  parse_json : Str → Except Str Json

/-- The `NearEventListener::fetch_chunk` (src/listener.rs lines 152-166): a chunk
request failure is wrapped as `ListenerError::RpcError(e.to_string())`. -/
def fetch_chunk (orc : Oracle) (chunk_hash : Nat) : Except ListenerError ChunkView :=
  match orc.chunk_response chunk_hash with
  | .ok chunk => .ok chunk
  | .error e => .error (.RpcError e)

/-- The `NearEventListener::get_logs` (src/listener.rs lines 197-221): parse the
displayed transaction hash (failure becomes `InvalidEventFormat`), issue the
status request built by `get_logs_request` (failure becomes `RpcError` of the
error's `to_string`), and extract the logs from the response. -/
def get_logs (orc : Oracle) (tx_hash : Str) (sender_account_id : Str) :
    Except ListenerError (List Str) :=
  match orc.parse_hash tx_hash with
  | .error e => .error (.InvalidEventFormat e)
  | .ok h =>
    match orc.tx_status_response (get_logs_request h sender_account_id) with
    | .error e => .error (.RpcError e)
    | .ok resp => .ok (extract_logs resp)

/-! ### One iteration of the polling loop -/

/-- Modelled from the spec: the per-log event dispatch of `start_polling`
(src/listener.rs lines 116-123).  In the committed source the `for log in
logs` loop is commented out while its body still applies `process_log` to the
now-unbound variable `log`, so the crate as committed does not compile; spec
sections 4.5 and 9 state the intended contract — apply the parser to every
returned log line independently, skip lines that fail to parse, and invoke
the handler once per successfully parsed line, in order.  The handler's
invocations are modelled as the returned list of decoded events. -/
def dispatchEvents (deser : Str → Except Str EventLog) (logs : List Str) : List EventLog :=
  logs.filterMap (fun log => (process_log deser log).toOption)

/-- Result of one iteration of `start_polling`'s loop: either the loop goes
on with an updated cursor having invoked the handler on the listed events, or
it terminates with an error (the cursor field records
`self.last_processed_block` at that moment). -/
inductive StepResult where
  | next (cursor : Nat) (events : List EventLog) : StepResult
  | fatal (e : ListenerError) (cursor : Nat) : StepResult

/-- The cursor after an iteration. -/
def StepResult.cursor : StepResult → Nat
  | .next c _ => c
  | .fatal _ c => c

/-- One iteration of `start_polling` (src/listener.rs lines 95-133): resolve
the block reference from the cursor, fetch the block; on success scan it,
retrieve and dispatch logs of a match, and set the cursor to the block's
header height; on fetch failure delegate to `handle_block_error`; errors of
the scan or of `get_logs` propagate (`?`) and terminate the loop with the
cursor untouched. -/
def step (cfg : ListenerConfig) (orc : Oracle) (last_processed_block : Nat) : StepResult :=
  match orc.block_response (specify_block_reference last_processed_block) with
  | .ok block =>
    match find_transaction_in_block cfg (fetch_chunk orc) block with
    | .error e => .fatal e last_processed_block
    | .ok none => .next block.header.height []
    | .ok (some (tx_hash, sender_account_id)) =>
      match get_logs orc tx_hash sender_account_id with
      | .error e => .fatal e last_processed_block
      | .ok logs => .next block.header.height (dispatchEvents (serdeFromStr orc.parse_json) logs)
  | .error err =>
    match handle_block_error last_processed_block err with
    | (.ok _, c, _) => .next c []
    | (.error e, c, _) => .fatal e c

/-- Iterated polling: run one step per oracle until the list is exhausted or
a step is fatal; returns the final cursor and the terminating error, if any. -/
def run (cfg : ListenerConfig) : List Oracle → Nat → Nat × Option ListenerError
  | [], c => (c, none)
  | orc :: rest, c =>
    match step cfg orc c with
    | .next c' _ => run cfg rest c'
    | .fatal e c' => (c', some e)

/-! ### Claim theorems about error handling, log retrieval and the loop -/

/-- C5: `handle_block_error` sends every block-fetch error to exactly one of
three verdicts — `UnknownBlock` continues with the cursor advanced by 1 and
no extra sleep (and, via `step`, no event dispatch that iteration, see C4's
unknown-block equation); a server response-status error continues after the
5-second sleep with the cursor unchanged (so the same reference is retried,
`specify_block_reference` being a function of the cursor); every other
handler or non-handler error is a fatal `RpcError` — and a chunk-fetch or
transaction-status failure makes the whole iteration fatal with the
`RpcError` wrapping of the raw error. -/
theorem claim_C5_error_classification :
    (∀ c, handle_block_error c (.HandlerError .UnknownBlock) = (.ok (), c + 1, false))
    ∧ (∀ c s, handle_block_error c (.ResponseStatusError s) = (.ok (), c, true))
    ∧ (∀ c, handle_block_error c (.HandlerError .NotSyncedYet) =
        (.error (.RpcError ("Block error: ".toList ++ "NotSyncedYet".toList)), c, false))
    ∧ (∀ c m, handle_block_error c (.HandlerError (.InternalError m)) =
        (.error (.RpcError ("Block error: ".toList ++ ("InternalError ".toList ++ m))), c, false))
    ∧ (∀ c m, handle_block_error c (.OtherError m) =
        (.error (.RpcError ("Non-handler error: ".toList ++ m)), c, false))
    ∧ (∀ cfg c m hdr ch chs tsr ph pj,
        step cfg ⟨fun _ => .ok ⟨hdr, ch :: chs⟩, fun _ => .error m, tsr, ph, pj⟩ c =
          .fatal (.RpcError m) c)
    ∧ (∀ cfg c m hdr ch hsh sgn cr pj,
        step cfg ⟨fun _ => .ok ⟨hdr, [ch]⟩,
            fun _ => .ok ⟨[⟨hsh, sgn, cfg.account_id, [.FunctionCall cfg.method_name]⟩]⟩,
            fun _ => .error m, fun _ => .ok cr, pj⟩ c =
          .fatal (.RpcError m) c) := by
  refine ⟨fun c => rfl, fun c s => rfl, fun c => rfl, fun c m => rfl, fun c m => rfl, ?_, ?_⟩
  · intro cfg c m hdr ch chs tsr ph pj
    rfl
  · intro cfg c m hdr ch hsh sgn cr pj
    simp [step, find_transaction_in_block, findInChunks, fetch_chunk, findMatchInTxs,
      actionMatches, get_logs, get_logs_request]

/-- Probe collaborator that answers the transaction-status request only when
`wait_until` is `Final`. -/
def finalProbeOracle : Oracle where
  block_response := fun _ => .error (.OtherError [])
  chunk_response := fun _ => .error []
  tx_status_response := fun req =>
    if req.wait_until == TxExecutionStatus.Final then .ok ⟨none⟩
    else .error ("wait_until was not Final".toList)
  parse_hash := fun _ => .ok 0
  parse_json := fun _ => .error []

/-- C3, counterexample: against a collaborator that only accepts requests with
`wait_until = Final`, `get_logs` fails — the request it actually issues (src/
listener.rs line 210) carries `TxExecutionStatus::None`, not the "wait for
final" mode the claim asserts. -/
theorem claim_C3_counterexample :
    get_logs finalProbeOracle ("h".toList) ("s".toList) =
      .error (.RpcError ("wait_until was not Final".toList)) := rfl

/-- C3, amended: for every matched transaction whose hash parses, `get_logs`
issues the status request built from the hash and signer with
`wait_until = TxExecutionStatus::None` (no waiting for finality), and then
extracts logs from the response (or wraps the call error in `RpcError`). -/
theorem claim_C3_wait_until_none (orc : Oracle) (tx s : Str) (h : Nat)
    (hp : orc.parse_hash tx = .ok h) :
    (get_logs_request h s).wait_until = TxExecutionStatus.None ∧
    (∀ resp, orc.tx_status_response (get_logs_request h s) = .ok resp →
      get_logs orc tx s = .ok (extract_logs resp)) ∧
    (∀ m, orc.tx_status_response (get_logs_request h s) = .error m →
      get_logs orc tx s = .error (.RpcError m)) := by
  refine ⟨rfl, ?_, ?_⟩
  · intro resp hr
    simp [get_logs, hp, hr]
  · intro m hr
    simp [get_logs, hp, hr]

/-- Witness for C3 (amended) at a concrete collaborator that resolves the
status request with an outcome-free response: `get_logs` succeeds with its
extracted (empty) logs. -/
theorem claim_C3_witness :
    get_logs ⟨fun _ => .error (.OtherError []), fun _ => .error [],
        fun _ => .ok ⟨none⟩, fun _ => .ok 0, fun _ => .error []⟩
      ("h".toList) ("s".toList) = .ok (extract_logs ⟨none⟩) :=
  (claim_C3_wait_until_none ⟨fun _ => .error (.OtherError []), fun _ => .error [],
      fun _ => .ok ⟨none⟩, fun _ => .ok 0, fun _ => .error []⟩
    ("h".toList) ("s".toList) 0 rfl).2.1 ⟨none⟩ rfl

/-- A configuration used by the concrete scenarios below. -/
def exampleConfig : ListenerConfig := ⟨"counter.near".toList, "increment".toList⟩

/-- Collaborator whose block fetch succeeds (height 42, one chunk) but whose
chunk fetch fails. -/
def chunkFailOracle : Oracle where
  block_response := fun _ => .ok ⟨⟨42⟩, [⟨0⟩]⟩
  chunk_response := fun _ => .error ("chunk fetch failed".toList)
  tx_status_response := fun _ => .error []
  parse_hash := fun _ => .ok 0
  parse_json := fun _ => .error []

/-- C4, counterexample: from cursor 5 the block fetch succeeds with header
height 42, yet the iteration ends fatally on the chunk-fetch failure (the `?`
on src/listener.rs line 106 returns before line 126 runs) and the cursor
afterwards is still 5, not the fetched block's height. -/
theorem claim_C4_counterexample :
    chunkFailOracle.block_response (specify_block_reference 5) = .ok ⟨⟨42⟩, [⟨0⟩]⟩ ∧
    step exampleConfig chunkFailOracle 5 =
      .fatal (.RpcError ("chunk fetch failed".toList)) 5 ∧
    ((step exampleConfig chunkFailOracle 5).cursor == 42) = false :=
  ⟨rfl, rfl, rfl⟩

/-- C4, amended: per-iteration cursor transitions — if the block fetch
succeeds AND the iteration completes without a fatal chunk/status error, the
cursor becomes exactly the fetched block's header height; an unknown-block
failure continues with exactly `c + 1` (and no events); a response-status
failure continues with the cursor unchanged (and no events). -/
theorem claim_C4_cursor_transitions (cfg : ListenerConfig) (orc : Oracle) (c : Nat) :
    (∀ block c' events, orc.block_response (specify_block_reference c) = .ok block →
      step cfg orc c = .next c' events → c' = block.header.height) ∧
    (orc.block_response (specify_block_reference c) = .error (.HandlerError .UnknownBlock) →
      step cfg orc c = .next (c + 1) []) ∧
    (∀ s, orc.block_response (specify_block_reference c) = .error (.ResponseStatusError s) →
      step cfg orc c = .next c []) := by
  refine ⟨?_, ?_, ?_⟩
  · intro block c' events hb hs
    unfold step at hs
    simp only [hb] at hs
    cases hf : find_transaction_in_block cfg (fetch_chunk orc) block with
    | error e =>
      simp only [hf] at hs
      exact absurd hs (by simp)
    | ok o =>
      cases o with
      | none => simp only [hf] at hs; cases hs; rfl
      | some pr =>
        obtain ⟨th, sa⟩ := pr
        simp only [hf] at hs
        cases hg : get_logs orc th sa with
        | error e =>
          simp only [hg] at hs
          exact absurd hs (by simp)
        | ok logs => simp only [hg] at hs; cases hs; rfl
  · intro hb
    unfold step
    rw [hb]
    rfl
  · intro s hb
    unfold step
    rw [hb]
    rfl

/-- Collaborator whose block fetch always reports an unknown block. -/
def unknownBlockOracle : Oracle where
  block_response := fun _ => .error (.HandlerError .UnknownBlock)
  chunk_response := fun _ => .error []
  tx_status_response := fun _ => .error []
  parse_hash := fun _ => .error []
  parse_json := fun _ => .error []

/-- Witness for C4 (amended), unknown-block leg at cursor 5: the iteration
continues at cursor 6 with no events. -/
theorem claim_C4_witness :
    step exampleConfig unknownBlockOracle 5 = .next 6 [] :=
  (claim_C4_cursor_transitions exampleConfig unknownBlockOracle 5).2.1 rfl

/-- The height-consistency assumption of C9 on a collaborator: a block
returned for an explicit-height request has exactly that header height. -/
def OracleHeightConsistent (orc : Oracle) : Prop :=
  ∀ h block, orc.block_response (.BlockId (.Height h)) = .ok block →
    block.header.height = h

theorem step_cursor_mono (cfg : ListenerConfig) (orc : Oracle) (c : Nat)
    (hcons : OracleHeightConsistent orc) : c ≤ (step cfg orc c).cursor := by
  unfold step
  cases hb : orc.block_response (specify_block_reference c) with
  | ok block =>
    have hle : c ≤ block.header.height := by
      by_cases hc : c = 0
      · subst hc
        exact Nat.zero_le _
      · have hspec : specify_block_reference c = .BlockId (.Height (c + 1)) := by
          have hne : (c == 0) = false := by simp [hc]
          simp [specify_block_reference, hne]
        rw [hspec] at hb
        have := hcons (c + 1) block hb
        omega
    cases hf : find_transaction_in_block cfg (fetch_chunk orc) block with
    | error e => simp [hf, StepResult.cursor]
    | ok o =>
      cases o with
      | none => simpa [hf, StepResult.cursor] using hle
      | some pr =>
        obtain ⟨th, sa⟩ := pr
        cases hg : get_logs orc th sa with
        | error e => simp [hf, hg, StepResult.cursor]
        | ok logs => simpa [hf, hg, StepResult.cursor] using hle
  | error err =>
    cases err with
    | HandlerError e =>
      cases e with
      | UnknownBlock =>
        simp [handle_block_error, handler_error, StepResult.cursor]
      | NotSyncedYet => simp [handle_block_error, handler_error, StepResult.cursor]
      | InternalError m => simp [handle_block_error, handler_error, StepResult.cursor]
    | ResponseStatusError s => simp [handle_block_error, handler_error, StepResult.cursor]
    | OtherError m => simp [handle_block_error, handler_error, StepResult.cursor]

theorem step_fatal_cursor_eq (cfg : ListenerConfig) (orc : Oracle) (c : Nat)
    (e : ListenerError) (c' : Nat) (h : step cfg orc c = .fatal e c') : c' = c := by
  unfold step at h
  cases hb : orc.block_response (specify_block_reference c) with
  | ok block =>
    simp only [hb] at h
    cases hf : find_transaction_in_block cfg (fetch_chunk orc) block with
    | error e2 => simp only [hf] at h; cases h; rfl
    | ok o =>
      cases o with
      | none =>
        simp only [hf] at h
        exact absurd h (by simp)
      | some pr =>
        obtain ⟨th, sa⟩ := pr
        simp only [hf] at h
        cases hg : get_logs orc th sa with
        | error e2 => simp only [hg] at h; cases h; rfl
        | ok logs =>
          simp only [hg] at h
          exact absurd h (by simp)
  | error err =>
    simp only [hb] at h
    cases err with
    | HandlerError e2 =>
      cases e2 with
      | UnknownBlock =>
        simp only [handle_block_error, handler_error] at h
        exact absurd h (by simp)
      | NotSyncedYet =>
        simp only [handle_block_error, handler_error] at h
        cases h; rfl
      | InternalError m =>
        simp only [handle_block_error, handler_error] at h
        cases h; rfl
    | ResponseStatusError s =>
      simp only [handle_block_error, handler_error] at h
      exact absurd h (by simp)
    | OtherError m =>
      simp only [handle_block_error, handler_error] at h
      cases h; rfl

/-- C9: across any sequence of iterations against collaborators that answer
explicit-height requests with blocks of exactly that height, the cursor never
decreases — every continuation updates it to a value at least as large (so
the final cursor is at least the initial one) — and a fatal iteration (any
failure path other than the unknown-block compensation that terminates the
loop) leaves the cursor exactly as it was. -/
theorem claim_C9_cursor_never_decreases (cfg : ListenerConfig) (oracles : List Oracle)
    (c : Nat) (hcons : ∀ orc ∈ oracles, OracleHeightConsistent orc) :
    c ≤ (run cfg oracles c).1 ∧
    (∀ orc c₀ e c', step cfg orc c₀ = .fatal e c' → c' = c₀) := by
  constructor
  · induction oracles generalizing c with
    | nil => simp [run]
    | cons orc rest ih =>
      have hstep := step_cursor_mono cfg orc c (hcons orc (by simp))
      simp only [run]
      cases hs : step cfg orc c with
      | next c' evs =>
        rw [hs] at hstep
        exact le_trans hstep (ih c' (fun o ho => hcons o (by simp [ho])))
      | fatal e c' =>
        rw [hs] at hstep
        simpa using hstep
  · intro orc c₀ e c' h
    exact step_fatal_cursor_eq cfg orc c₀ e c' h

/-- Witness for C9: two unknown-block iterations from cursor 2 end at cursor
4 ≥ 2; the (vacuous for an always-failing block fetch) height-consistency
hypothesis is discharged explicitly. -/
theorem claim_C9_witness :
    2 ≤ (run exampleConfig [unknownBlockOracle, unknownBlockOracle] 2).1 :=
  (claim_C9_cursor_never_decreases exampleConfig [unknownBlockOracle, unknownBlockOracle] 2
    (by
      intro orc hmem h block hb
      have horc : orc = unknownBlockOracle := by
        rcases List.mem_cons.mp hmem with h1 | h2
        · exact h1
        · simpa using h2
      rw [horc] at hb
      simp [unknownBlockOracle] at hb)).1

/-- Collaborator realizing spec Scenario F: one block (height 42) with one
chunk holding one transaction that matches `exampleConfig`, whose status
response carries two `EVENT_JSON:` log lines; the JSON grammar accepts every
payload as an object whose `standard` field is the payload itself. -/
def scenarioOracle : Oracle where
  block_response := fun _ => .ok ⟨⟨42⟩, [⟨0⟩]⟩
  chunk_response := fun _ => .ok ⟨[⟨"txhash".toList, "signer.near".toList,
    "counter.near".toList, [.FunctionCall ("increment".toList)]⟩]⟩
  tx_status_response := fun _ => .ok ⟨some (.FinalExecutionOutcome
    ⟨⟨⟨["EVENT_JSON:1".toList, "EVENT_JSON:2".toList]⟩⟩, []⟩)⟩
  parse_hash := fun _ => .ok 0
  parse_json := fun s => .ok (.obj [(standardKey, .str s), (versionKey, .str []),
    (eventKey, .str []), (dataKey, .null)])

/-- C1 (spec Scenario F, against the spec-modelled dispatch `dispatchEvents`;
the committed dispatch code itself does not compile, see `dispatchEvents`):
a matched transaction whose status result carries two valid `EVENT_JSON:`
lines makes the iteration invoke the handler exactly twice, once per decoded
event, in log order, and advance the cursor to the block height. -/
theorem claim_C1_scenario_F_two_events :
    step exampleConfig scenarioOracle 5 =
      .next 42 [⟨"1".toList, [], [], Json.null⟩, ⟨"2".toList, [], [], Json.null⟩] := rfl

end NearListener
